import Mathlib

/-!
Shallow embedding of the reconciliation core of `magnum_capi_helm`
(`driver.py` and `kubernetes.py`) and proofs about it.

The embedding follows the source: node-group status reducers
(`_update_control_plane_nodegroup_status`, `_update_worker_nodegroup_status`),
the shared signal-to-record transition (`_update_nodegroup_status`), the
cluster-level pass (`update_cluster_status` and its helpers), and the
paginated label-list loop (`Resource.fetch_all_by_label`).
-/

namespace CapiHelm

/-- The `NodeGroupState` enum of `driver.py`. -/
inductive NodeGroupState where
  | NOT_PRESENT
  | PENDING
  | READY
  | FAILED
  deriving DecidableEq, Repr

/-- One entry of a remote object's `status.conditions` list. -/
structure Condition where
  type : String
  status : String
  deriving DecidableEq, Repr

/-- The fields of the remote KubeadmControlPlane object read by
`_update_control_plane_nodegroup_status`.  Every field is optional
because the source reads them with `dict.get`, which yields `None`
for a missing key. -/
structure KcpObj where
  specReplicas : Option Int
  statusReplicas : Option Int
  updatedReplicas : Option Int
  readyReplicas : Option Int
  statusVersion : Option String
  specVersion : Option String
  conditions : List Condition
  deriving DecidableEq, Repr

/-- The fields of a remote MachineDeployment object read by
`_update_worker_nodegroup_status`: only `status.phase`. -/
structure MdObj where
  phase : Option String
  deriving DecidableEq, Repr

/-- The fields of the remote Cluster API cluster object read by the pass:
`spec.controlPlaneEndpoint` (host and port) and `status.conditions`. -/
structure CapiObj where
  controlPlaneEndpoint : Option (String × Nat)
  conditions : List Condition
  deriving DecidableEq, Repr

/-- An addon object; the pass reads only `status.phase`. -/
structure Addon where
  phase : Option String
  deriving DecidableEq, Repr

/-- A Magnum node-group record, restricted to the fields the pass reads. -/
structure NodeGroup where
  name : String
  role : String
  status : String
  isDefault : Bool
  deriving DecidableEq, Repr

/-- A Magnum cluster record, restricted to the fields the pass reads and
writes.  `nodegroups` is the persisted collection of node-group records. -/
structure Cluster where
  status : String
  apiAddress : Option String
  coeVersion : Option String
  releaseName : Option String
  nodegroups : List NodeGroup
  deriving DecidableEq, Repr

/-- `a.startswith(b)` of Python, on the character lists of the strings. -/
def strStarts (s p : String) : Bool := p.data.isPrefixOf s.data

/-- `a.endswith(b)` of Python, on the character lists of the strings. -/
def strEnds (s p : String) : Bool := p.data.isSuffixOf s.data

/-- The membership test done by building the set of condition types whose
status is `"True"`: every needed type must occur with status `"True"`. -/
def condsTrue (conds : List Condition) (need : List String) : Bool :=
  need.all fun t => conds.any fun c => c.type = t && c.status = "True"

/-- The four condition types required by
`_update_control_plane_nodegroup_status`. -/
def kcpRequired : List String :=
  ["MachinesReady", "Ready", "EtcdClusterHealthy",
   "ControlPlaneComponentsHealthy"]

/-- `kcp_status.get("version", kcp_spec.get("version"))`: status version,
falling back to spec version; `none` when the object is absent. -/
def kcpVersion : Option KcpObj → Option String
  | none => none
  | some k => k.statusVersion.orElse fun _ => k.specVersion

/-- The controller-variant reducer of
`_update_control_plane_nodegroup_status` (lines 87-125 of `driver.py`):
absent object gives `NOT_PRESENT`; a present object defaults to `PENDING`
and is promoted to `READY` when the four conditions hold with status
`"True"` and the chained `==` comparisons between `spec.replicas`,
`status.replicas`, `status.updatedReplicas` and `status.readyReplicas`
succeed.  Missing replica fields are `None` in the source and compare
equal to each other, which the `Option Int` equality mirrors. -/
def controlPlaneState (kcp : Option KcpObj) : NodeGroupState :=
  match kcp with
  | none => NodeGroupState.NOT_PRESENT
  | some k =>
    if condsTrue k.conditions kcpRequired = true ∧
        k.specReplicas = k.statusReplicas ∧
        k.statusReplicas = k.updatedReplicas ∧
        k.updatedReplicas = k.readyReplicas
    then NodeGroupState.READY
    else NodeGroupState.PENDING

/-- The worker-variant reducer of `_update_worker_nodegroup_status`
(lines 138-166 of `driver.py`).  `machinesExist` is the result of
`_nodegroup_machines_exist`, consulted only when the machine deployment is
absent and the record status begins with `DELETE_`. -/
def workerSignal (md : Option MdObj) (ngStatus : String)
    (machinesExist : Bool) : NodeGroupState :=
  let base := if md.isSome then NodeGroupState.PENDING
              else NodeGroupState.NOT_PRESENT
  let base := if md.isNone && strStarts ngStatus "DELETE_" && machinesExist
              then NodeGroupState.PENDING else base
  match md with
  | none => base
  | some m =>
    match m.phase with
    | none => base
    | some p =>
      if p = "" then base
      else if p = "Running" then NodeGroupState.READY
      else if p = "Failed" || p = "Unknown" then NodeGroupState.FAILED
      else base

/-- The outcome of `_update_nodegroup_status` on one record: the record
that remains persisted (`none` when destroyed), the value the function
returns (`none` signals the group is gone), the number of `save()` calls,
and whether `destroy()` was called. -/
structure NgOut where
  record : Option NodeGroup
  returned : Option NodeGroup
  saves : Nat
  destroyed : Bool
  deriving DecidableEq, Repr

/-- The signal-to-record transition `_update_nodegroup_status`
(lines 169-233 of `driver.py`). -/
def applySignal (ng : NodeGroup) (s : NodeGroupState) : NgOut :=
  if strStarts ng.status "DELETE_" then
    if s = NodeGroupState.NOT_PRESENT then
      if ng.isDefault then ⟨some ng, none, 0, false⟩
      else ⟨none, none, 0, true⟩
    else ⟨some ng, some ng, 0, false⟩
  else
    let isUpd := strStarts ng.status "UPDATE_"
    let isCre := strStarts ng.status "CREATE_"
    if !isUpd && !isCre then ⟨some ng, some ng, 0, false⟩
    else if s = NodeGroupState.READY then
      let ng2 := {ng with status :=
        if isUpd then "UPDATE_COMPLETE" else "CREATE_COMPLETE"}
      ⟨some ng2, some ng2, 1, false⟩
    else if s = NodeGroupState.FAILED then
      let ng2 := {ng with status :=
        if isUpd then "UPDATE_FAILED" else "CREATE_FAILED"}
      ⟨some ng2, some ng2, 1, false⟩
    else ⟨some ng, some ng, 0, false⟩

/-- Phase-to-signal table as the spec states it for a present machine
deployment (clearly spec-side, for comparison with `workerSignal`). -/
def specWorkerPhaseMap (phase : Option String) : NodeGroupState :=
  match phase with
  | none => NodeGroupState.PENDING
  | some p =>
    if p = "Running" then NodeGroupState.READY
    else if p = "Failed" then NodeGroupState.FAILED
    else if p = "Unknown" then NodeGroupState.FAILED
    else NodeGroupState.PENDING

/-- One reconciliation pass's view of the remote API.  Each call either
returns a value or fails with a transport error (`Except.error`), matching
`fetch` (404 maps to `none`, any other non-2xx raises) and the label-list
calls (which raise on any non-2xx). -/
structure Env where
  capi : Except Unit (Option CapiObj)
  kcp : Except Unit (Option KcpObj)
  md : String → Except Unit (Option MdObj)
  machines : String → Except Unit Bool
  addons : Except Unit (List Addon)
  secretsDelete : Except Unit Unit
  appCredDelete : Except Unit Unit

/-- `cluster.coe_version` stamping in
`_update_control_plane_nodegroup_status` (lines 96-99): overwrite and
save exactly when the stored version differs from the fetched one. -/
def updateCoeVersion (c : Cluster) (kcp : Option KcpObj) : Cluster × Nat :=
  let v := kcpVersion kcp
  if c.coeVersion ≠ v then ({c with coeVersion := v}, 1) else (c, 0)

/-- Result of updating one node group inside the pass: the cluster record
(its `coeVersion` may have changed), `save()` calls issued, the persisted
node-group record, the value returned to the caller, and whether a remote
call failed (the Python exception aborts the whole pass). -/
structure NgStep where
  cluster : Cluster
  writes : Nat
  record : Option NodeGroup
  returned : Option NodeGroup
  aborted : Bool
  deriving DecidableEq, Repr

/-- `_update_control_plane_nodegroup_status` / `_update_worker_nodegroup_status`
dispatched on the record role (`_update_all_nodegroups_status`,
lines 354-364; the controller role string is `"master"`).  The machines
label-list is consulted only when the machine deployment is absent and the
record status begins with `DELETE_`, mirroring the `and` short circuit. -/
def processNg (env : Env) (c : Cluster) (ng : NodeGroup) : NgStep :=
  if ng.role = "master" then
    match env.kcp with
    | Except.error _ => ⟨c, 0, some ng, some ng, true⟩
    | Except.ok kcp =>
      let cv := updateCoeVersion c kcp
      let o := applySignal ng (controlPlaneState kcp)
      ⟨cv.1, cv.2 + o.saves, o.record, o.returned, false⟩
  else
    match env.md ng.name with
    | Except.error _ => ⟨c, 0, some ng, some ng, true⟩
    | Except.ok md =>
      if md.isNone && strStarts ng.status "DELETE_" then
        match env.machines ng.name with
        | Except.error _ => ⟨c, 0, some ng, some ng, true⟩
        | Except.ok mach =>
          let o := applySignal ng (workerSignal md ng.status mach)
          ⟨c, o.saves, o.record, o.returned, false⟩
      else
        let o := applySignal ng (workerSignal md ng.status false)
        ⟨c, o.saves, o.record, o.returned, false⟩

/-- Result of `_update_all_nodegroups_status`: threaded cluster record,
writes, surviving records, the list of returned (non-`None`) groups used
for the in-progress check, and the abort flag. -/
structure NgsRes where
  cluster : Cluster
  writes : Nat
  records : List NodeGroup
  returns : List NodeGroup
  aborted : Bool
  deriving DecidableEq, Repr

/-- `_update_all_nodegroups_status` (lines 351-372): process every node
group in order; an exception stops the loop, leaving the remaining
records untouched. -/
def processAllNgs (env : Env) (c : Cluster) : List NodeGroup → NgsRes
  | [] => ⟨c, 0, [], [], false⟩
  | ng :: rest =>
    let s := processNg env c ng
    if s.aborted then
      ⟨s.cluster, s.writes, s.record.toList ++ rest, [], true⟩
    else
      let r := processAllNgs env s.cluster rest
      ⟨r.cluster, s.writes + r.writes, s.record.toList ++ r.records,
       s.returned.toList ++ r.returns, r.aborted⟩

/-- `https://{host}:{port}` (line 266-268 of `driver.py`). -/
def addrOf (h : String) (p : Nat) : String :=
  "https://" ++ h ++ ":" ++ toString p

/-- Membership in `{CREATE_IN_PROGRESS, UPDATE_IN_PROGRESS}`. -/
def inProgressStatus (s : String) : Bool :=
  s = "CREATE_IN_PROGRESS" || s = "UPDATE_IN_PROGRESS"

/-- `_update_cluster_api_address` (lines 248-272) for a present cluster
object: skip unless the cluster is creating or updating; skip when the
endpoint is missing or empty; otherwise write the address only when it
differs from the stored one. -/
def updateClusterApiAddress (c : Cluster) (capi : CapiObj) : Cluster × Nat :=
  if !(inProgressStatus c.status) then (c, 0)
  else
    match capi.controlPlaneEndpoint with
    | none => (c, 0)
    | some hp =>
      let addr := addrOf hp.1 hp.2
      if c.apiAddress ≠ some addr then
        ({c with apiAddress := some addr}, 1)
      else (c, 0)

/-- Verdict of the sequential addon scan in `_update_status_updating`
(lines 297-318). -/
inductive AddonScan where
  | failed
  | waiting
  | allDeployed
  deriving DecidableEq, Repr

/-- The addon loop: the first addon whose phase is truthy and in
`{Failed, Unknown}` fails the cluster; a `Deployed` addon is skipped; any
other addon (missing, empty or other phase) stops the scan with no
verdict this pass. -/
def scanAddons : List Addon → AddonScan
  | [] => AddonScan.allDeployed
  | a :: rest =>
    match a.phase with
    | none => AddonScan.waiting
    | some p =>
      if p = "Failed" || p = "Unknown" then AddonScan.failed
      else if p = "Deployed" then scanAddons rest
      else AddonScan.waiting

/-- The three cluster-level conditions required before addons are
evaluated (line 282). -/
def clusterRequired : List String :=
  ["InfrastructureReady", "ControlPlaneReady", "Ready"]

/-- Result of a cluster-level step: record, writes, abort flag. -/
structure StepRes where
  cluster : Cluster
  writes : Nat
  aborted : Bool
  deriving DecidableEq, Repr

/-- The matching `*_FAILED` status (lines 301-305). -/
def failedFor (s : String) : String :=
  if strStarts s "UPDATE_" then "UPDATE_FAILED" else "CREATE_FAILED"

/-- The matching `*_COMPLETE` status (lines 321-325). -/
def completeFor (s : String) : String :=
  if strStarts s "UPDATE_" then "UPDATE_COMPLETE" else "CREATE_COMPLETE"

/-- `_update_status_updating` (lines 274-326): require the three
conditions with status `"True"`, then fetch the addons and scan them. -/
def updateStatusUpdating (env : Env) (c : Cluster) (capi : CapiObj) :
    StepRes :=
  if !(condsTrue capi.conditions clusterRequired) then ⟨c, 0, false⟩
  else
    match env.addons with
    | Except.error _ => ⟨c, 0, true⟩
    | Except.ok addons =>
      match scanAddons addons with
      | AddonScan.failed => ⟨{c with status := failedFor c.status}, 1, false⟩
      | AddonScan.waiting => ⟨c, 0, false⟩
      | AddonScan.allDeployed =>
        ⟨{c with status := completeFor c.status}, 1, false⟩

/-- `_update_status_deleting` (lines 328-341): purge secrets, purge the
application credential, then mark the cluster `DELETE_COMPLETE`. -/
def updateStatusDeleting (env : Env) (c : Cluster) : StepRes :=
  match env.secretsDelete with
  | Except.error _ => ⟨c, 0, true⟩
  | Except.ok _ =>
    match env.appCredDelete with
    | Except.error _ => ⟨c, 0, true⟩
    | Except.ok _ => ⟨{c with status := "DELETE_COMPLETE"}, 1, false⟩

/-- One full reconciliation pass, `update_cluster_status`
(lines 374-418): fetch the cluster object (treated as absent without a
request when the release name is unset), update the address and all node
groups when it is present, then dispatch on the cluster status. -/
def runPass (env : Env) (c : Cluster) : StepRes :=
  match (if c.releaseName.isSome then env.capi else Except.ok none) with
  | Except.error _ => ⟨c, 0, true⟩
  | Except.ok none =>
    if inProgressStatus c.status then ⟨c, 0, false⟩
    else if c.status = "DELETE_IN_PROGRESS" then updateStatusDeleting env c
    else ⟨c, 0, false⟩
  | Except.ok (some capi) =>
    let a := updateClusterApiAddress c capi
    let r := processAllNgs env a.1 a.1.nodegroups
    let c2 : Cluster := {r.cluster with nodegroups := r.records}
    if r.aborted then ⟨c2, a.2 + r.writes, true⟩
    else if inProgressStatus c2.status then
      if r.returns.any fun g => strEnds g.status "_IN_PROGRESS" then
        ⟨c2, a.2 + r.writes, false⟩
      else
        let u := updateStatusUpdating env c2 capi
        ⟨u.cluster, a.2 + r.writes + u.writes, u.aborted⟩
    else ⟨c2, a.2 + r.writes, false⟩

/-- A remote view in which every call succeeds. -/
structure PureEnv where
  capi : Option CapiObj
  kcp : Option KcpObj
  md : String → Option MdObj
  machines : String → Bool
  addons : List Addon

/-- Embed an error-free view into `Env`. -/
def Env.ofPure (p : PureEnv) : Env :=
  ⟨Except.ok p.capi, Except.ok p.kcp, fun n => Except.ok (p.md n),
   fun n => Except.ok (p.machines n), Except.ok p.addons,
   Except.ok (), Except.ok ()⟩

/-- The lifecycle signal computed for one node group under an error-free
view, as produced inside `processNg`. -/
def pureSignal (p : PureEnv) (ng : NodeGroup) : NodeGroupState :=
  if ng.role = "master" then controlPlaneState p.kcp
  else
    workerSignal (p.md ng.name) ng.status
      (if (p.md ng.name).isNone && strStarts ng.status "DELETE_"
       then p.machines ng.name else false)

/-- The node-group records surviving one error-free pass. -/
def recordsOf (p : PureEnv) (ngs : List NodeGroup) : List NodeGroup :=
  ngs.filterMap fun ng => (applySignal ng (pureSignal p ng)).record

/-- The node-group values returned to `_update_all_nodegroups_status`
under an error-free pass. -/
def returnsOf (p : PureEnv) (ngs : List NodeGroup) : List NodeGroup :=
  ngs.filterMap fun ng => (applySignal ng (pureSignal p ng)).returned

/-! ### The paginated label-list loop (`Resource.fetch_all_by_label`) -/

/-- One server response: the page's items (opaque, numbered) and the
`metadata.continue` token. -/
structure Page where
  items : List Nat
  cont : String
  deriving DecidableEq, Repr

/-- `fetch_all_by_label` (lines 223-240 of `kubernetes.py`), with the
server modelled as a function from the request's `continue` parameter
(`none` when the token is empty, so also on the first request) to the
response page.  The Python `while True` loop is run on explicit fuel;
`none` means the fuel was exhausted before the loop ended.  On success
the result is the yielded items plus the trace of `continue` parameters
sent, one per request. -/
def fetchLoop (server : Option String → Page) (tok : Option String) :
    Nat → Option (List Nat × List (Option String))
  | 0 => none
  | fuel + 1 =>
    let page := server tok
    if page.cont = "" then some (page.items, [tok])
    else
      (fetchLoop server (some page.cont) fuel).map
        fun r => (page.items ++ r.1, tok :: r.2)

/-- The loop terminates within some request budget. -/
def fetchTerminates (server : Option String → Page) : Prop :=
  ∃ fuel, (fetchLoop server none fuel).isSome = true

/-- The server behaviour described by a finite chain of pages: starting
from request token `tok`, each page is served in turn, every
non-terminal page carries a non-empty continuation token, and the final
page carries the empty token. -/
inductive Serves (server : Option String → Page) :
    Option String → List Page → Prop where
  | last {tok p} : server tok = p → p.cont = "" → Serves server tok [p]
  | step {tok p ps} : server tok = p → p.cont ≠ "" →
      Serves server (some p.cont) ps → Serves server tok (p :: ps)

/-- The `continue` parameters the loop sends while consuming a chain of
pages: the current token first, then each page's token for the next
request. -/
def reqTrace (tok : Option String) : List Page → List (Option String)
  | [] => []
  | p :: ps => tok :: reqTrace (some p.cont) ps

/-- A server that answers every request with a non-empty continuation
token. -/
def constTokenServer : Option String → Page := fun _ => ⟨[], "more"⟩

/-- A three-page server: first request yields items 1,2 and token `"a"`,
request `"a"` yields item 3 and token `"b"`, request `"b"` yields items
4,5 and the empty token. -/
def threePageServer : Option String → Page := fun t =>
  match t with
  | none => ⟨[1, 2], "a"⟩
  | some "a" => ⟨[3], "b"⟩
  | some "b" => ⟨[4, 5], ""⟩
  | _ => ⟨[], ""⟩

/-- The pages served by `threePageServer` along the loop's request chain. -/
def threePages : List Page := [⟨[1, 2], "a"⟩, ⟨[3], "b"⟩, ⟨[4, 5], ""⟩]

/-! ### Concrete inputs used by counterexamples and witnesses -/

/-- A control-plane object with all four required conditions `"True"` and
none of the four replica fields present. -/
def kcpAllTrueNoReplicas : KcpObj :=
  ⟨none, none, none, none, none, none,
   [⟨"MachinesReady", "True"⟩, ⟨"Ready", "True"⟩,
    ⟨"EtcdClusterHealthy", "True"⟩,
    ⟨"ControlPlaneComponentsHealthy", "True"⟩]⟩

/-- A worker node group in creation. -/
def ngWorkerCreating : NodeGroup := ⟨"ng1", "worker", "CREATE_IN_PROGRESS", true⟩

/-- A cluster in creation with one worker node group. -/
def clusterOneWorker : Cluster :=
  ⟨"CREATE_IN_PROGRESS", none, none, some "r", [ngWorkerCreating]⟩

/-- An error-free remote view: cluster object present with no endpoint and
no conditions, machine deployment running, no addons. -/
def envRunningWorker : PureEnv :=
  ⟨some ⟨none, []⟩, none, fun _ => some ⟨some "Running"⟩, fun _ => false, []⟩

/-- A cluster in creation with one (default) controller node group. -/
def clusterMasterCreating : Cluster :=
  ⟨"CREATE_IN_PROGRESS", none, none, some "rel",
   [⟨"default-master", "master", "CREATE_IN_PROGRESS", true⟩]⟩

/-- A remote view in which the cluster fetch succeeds (endpoint known) but
the control-plane fetch fails with a transport error. -/
def envKcpError : Env :=
  ⟨Except.ok (some ⟨some ("10.0.0.1", 6443), []⟩), Except.error (),
   fun _ => Except.ok none, fun _ => Except.ok false, Except.ok [],
   Except.ok (), Except.ok ()⟩

/-- A cluster record in creation with no node groups. -/
def clusterCreatingBare : Cluster :=
  ⟨"CREATE_IN_PROGRESS", none, none, some "r", []⟩

/-- A cluster object whose three readiness conditions are all `"True"`. -/
def capiAllTrue : CapiObj :=
  ⟨none, [⟨"InfrastructureReady", "True"⟩, ⟨"ControlPlaneReady", "True"⟩,
          ⟨"Ready", "True"⟩]⟩

/-- The addon list: a not-yet-deployed addon (no phase) followed by a
failed one. -/
def addonsPendingThenFailed : List Addon := [⟨none⟩, ⟨some "Failed"⟩]

/-- A remote view whose addon list is `addonsPendingThenFailed`. -/
def envPendingThenFailed : Env :=
  ⟨Except.ok (some capiAllTrue), Except.ok none, fun _ => Except.ok none,
   fun _ => Except.ok false, Except.ok addonsPendingThenFailed,
   Except.ok (), Except.ok ()⟩

/-- A remote view whose addon list is a deployed addon followed by a
failed one. -/
def envDeployedThenFailed : Env :=
  ⟨Except.ok (some capiAllTrue), Except.ok none, fun _ => Except.ok none,
   fun _ => Except.ok false,
   Except.ok [⟨some "Deployed"⟩, ⟨some "Failed"⟩],
   Except.ok (), Except.ok ()⟩

/-- A remote view in which the very first call (the cluster fetch) fails
with a transport error. -/
def envCapiError : Env :=
  ⟨Except.error (), Except.ok none, fun _ => Except.ok none,
   fun _ => Except.ok false, Except.ok [], Except.ok (), Except.ok ()⟩

/-- A remote view in which every fetch succeeds and finds nothing. -/
def envNoKcp : Env :=
  ⟨Except.ok none, Except.ok none, fun _ => Except.ok none,
   fun _ => Except.ok false, Except.ok [], Except.ok (), Except.ok ()⟩

/-- A cluster record that has a stored Kubernetes version. -/
def clusterWithVersion : Cluster :=
  ⟨"CREATE_IN_PROGRESS", none, some "v1.26.2", some "r", []⟩

/-- A controller node group in creation. -/
def ngMaster : NodeGroup := ⟨"m", "master", "CREATE_IN_PROGRESS", true⟩

/-- A non-default worker node group being deleted. -/
def ngWorkerDeleting : NodeGroup :=
  ⟨"w1", "worker", "DELETE_IN_PROGRESS", false⟩

/-! ## Helper lemmas -/

theorem workerSignal_none (st : String) (mach : Bool) :
    workerSignal none st mach =
      (if strStarts st "DELETE_" && mach then NodeGroupState.PENDING
       else NodeGroupState.NOT_PRESENT) := by
  simp [workerSignal]

theorem workerSignal_some_ne (m : MdObj) (st : String) (mach : Bool) :
    workerSignal (some m) st mach ≠ NodeGroupState.NOT_PRESENT := by
  simp only [workerSignal, Option.isSome_some, Option.isNone_some]
  cases m.phase with
  | none => simp
  | some p => simp only []; split_ifs <;> simp

theorem applySignal_record_none (ng : NodeGroup) (s : NodeGroupState)
    (h : (applySignal ng s).record = none) :
    (applySignal ng s).returned = none ∧ (applySignal ng s).destroyed = true := by
  simp only [applySignal] at h ⊢
  split_ifs at h ⊢ <;> simp_all

theorem applySignal_fix (ng ng2 : NodeGroup) (s : NodeGroupState)
    (h : (applySignal ng s).record = some ng2) :
    ng2.role = ng.role ∧ ng2.name = ng.name ∧
    strStarts ng2.status "DELETE_" = strStarts ng.status "DELETE_" ∧
    (applySignal ng2 s).record = some ng2 ∧
    (applySignal ng2 s).returned = (applySignal ng s).returned := by
  simp only [applySignal] at h
  split_ifs at h <;> simp only [Option.some.injEq] at h <;> subst h <;>
    simp_all [applySignal] <;> split_ifs <;> simp_all +decide

theorem workerSignal_status_inv (md : Option MdObj) (st1 st2 : String)
    (mach : Bool) (h : strStarts st1 "DELETE_" = strStarts st2 "DELETE_") :
    workerSignal md st1 mach = workerSignal md st2 mach := by
  simp only [workerSignal, h]

theorem pureSignal_inv (p : PureEnv) (ng ng2 : NodeGroup)
    (hrole : ng2.role = ng.role) (hname : ng2.name = ng.name)
    (hdel : strStarts ng2.status "DELETE_" = strStarts ng.status "DELETE_") :
    pureSignal p ng2 = pureSignal p ng := by
  simp only [pureSignal, hrole, hname, hdel]
  split_ifs <;>
    first
    | rfl
    | exact workerSignal_status_inv (p.md ng.name) ng2.status ng.status _ hdel

theorem updateCoeVersion_fst (c : Cluster) (kcp : Option KcpObj) :
    (updateCoeVersion c kcp).1 = {c with coeVersion := kcpVersion kcp} := by
  simp only [updateCoeVersion]
  split_ifs with h
  · rfl
  · simp only [ne_eq, not_not] at h
    cases c
    simp_all

theorem processNg_cluster_fields (env : Env) (c : Cluster) (ng : NodeGroup) :
    (processNg env c ng).cluster.status = c.status ∧
    (processNg env c ng).cluster.apiAddress = c.apiAddress ∧
    (processNg env c ng).cluster.releaseName = c.releaseName ∧
    (processNg env c ng).cluster.nodegroups = c.nodegroups := by
  simp only [processNg]
  split_ifs with h
  · cases hk : env.kcp with
    | error e => simp
    | ok kcp => simp [updateCoeVersion_fst]
  · cases hm : env.md ng.name with
    | error e => simp
    | ok md =>
      dsimp only
      split_ifs with h2
      · cases hmach : env.machines ng.name with
        | error e => simp
        | ok mach => simp
      · simp

theorem processAll_cluster_fields (env : Env) (ngs : List NodeGroup) :
    ∀ c : Cluster,
    (processAllNgs env c ngs).cluster.status = c.status ∧
    (processAllNgs env c ngs).cluster.apiAddress = c.apiAddress ∧
    (processAllNgs env c ngs).cluster.releaseName = c.releaseName ∧
    (processAllNgs env c ngs).cluster.nodegroups = c.nodegroups := by
  induction ngs with
  | nil => intro c; simp [processAllNgs]
  | cons ng rest ih =>
    intro c
    have hng := processNg_cluster_fields env c ng
    have hih := ih (processNg env c ng).cluster
    simp only [processAllNgs]
    split_ifs with h <;> simp_all

theorem updateClusterApiAddress_fields (c : Cluster) (capi : CapiObj) :
    (updateClusterApiAddress c capi).1.status = c.status ∧
    (updateClusterApiAddress c capi).1.coeVersion = c.coeVersion ∧
    (updateClusterApiAddress c capi).1.releaseName = c.releaseName ∧
    (updateClusterApiAddress c capi).1.nodegroups = c.nodegroups := by
  simp only [updateClusterApiAddress]
  split_ifs with h
  · simp
  · cases hep : capi.controlPlaneEndpoint with
    | none => simp
    | some hp =>
      dsimp only
      split_ifs with h2 <;> simp

theorem updateClusterApiAddress_addr (c : Cluster) (capi : CapiObj) :
    (updateClusterApiAddress c capi).1.apiAddress = c.apiAddress ∨
    ∃ s : String, (updateClusterApiAddress c capi).1.apiAddress = some s := by
  simp only [updateClusterApiAddress]
  split_ifs with h
  · exact Or.inl rfl
  · cases hep : capi.controlPlaneEndpoint with
    | none => exact Or.inl rfl
    | some hp =>
      dsimp only
      split_ifs with h2
      · exact Or.inr ⟨addrOf hp.1 hp.2, rfl⟩
      · exact Or.inl rfl

theorem updateClusterApiAddress_sets (c : Cluster) (capi : CapiObj)
    (hp : String × Nat)
    (hip : inProgressStatus c.status = true)
    (hep : capi.controlPlaneEndpoint = some hp) :
    (updateClusterApiAddress c capi).1.apiAddress =
      some (addrOf hp.1 hp.2) := by
  simp only [updateClusterApiAddress, hip, hep]
  split_ifs with h2 <;> simp_all

theorem updateStatusUpdating_fields (env : Env) (c : Cluster)
    (capi : CapiObj) :
    (updateStatusUpdating env c capi).cluster.apiAddress = c.apiAddress ∧
    (updateStatusUpdating env c capi).cluster.coeVersion = c.coeVersion ∧
    (updateStatusUpdating env c capi).cluster.releaseName = c.releaseName ∧
    (updateStatusUpdating env c capi).cluster.nodegroups = c.nodegroups := by
  simp only [updateStatusUpdating]
  split_ifs with h
  · simp
  · cases ha : env.addons with
    | error e => simp
    | ok addons => cases hs : scanAddons addons <;> simp [hs]

theorem recordsOf_cons (p : PureEnv) (ng : NodeGroup)
    (rest : List NodeGroup) :
    recordsOf p (ng :: rest) =
      (applySignal ng (pureSignal p ng)).record.toList ++ recordsOf p rest := by
  simp only [recordsOf, List.filterMap_cons]
  cases (applySignal ng (pureSignal p ng)).record <;> simp

theorem returnsOf_cons (p : PureEnv) (ng : NodeGroup)
    (rest : List NodeGroup) :
    returnsOf p (ng :: rest) =
      (applySignal ng (pureSignal p ng)).returned.toList ++
        returnsOf p rest := by
  simp only [returnsOf, List.filterMap_cons]
  cases (applySignal ng (pureSignal p ng)).returned <;> simp

theorem processNg_pure (p : PureEnv) (c : Cluster) (ng : NodeGroup) :
    (processNg (Env.ofPure p) c ng).record =
      (applySignal ng (pureSignal p ng)).record ∧
    (processNg (Env.ofPure p) c ng).returned =
      (applySignal ng (pureSignal p ng)).returned ∧
    (processNg (Env.ofPure p) c ng).aborted = false ∧
    (processNg (Env.ofPure p) c ng).cluster =
      (if ng.role = "master" then {c with coeVersion := kcpVersion p.kcp}
       else c) := by
  simp only [processNg, pureSignal, Env.ofPure]
  split_ifs with h h2 <;> simp [updateCoeVersion_fst]

theorem processAll_pure (p : PureEnv) (ngs : List NodeGroup) :
    ∀ c : Cluster,
    (processAllNgs (Env.ofPure p) c ngs).records = recordsOf p ngs ∧
    (processAllNgs (Env.ofPure p) c ngs).returns = returnsOf p ngs ∧
    (processAllNgs (Env.ofPure p) c ngs).aborted = false ∧
    (processAllNgs (Env.ofPure p) c ngs).cluster =
      (if ngs.any (fun g => g.role == "master") = true then
        {c with coeVersion := kcpVersion p.kcp} else c) := by
  induction ngs with
  | nil => intro c; simp [processAllNgs, recordsOf, returnsOf]
  | cons ng rest ih =>
    intro c
    obtain ⟨h1, h2, h3, h4⟩ := processNg_pure p c ng
    obtain ⟨i1, i2, i3, i4⟩ := ih (processNg (Env.ofPure p) c ng).cluster
    simp only [processAllNgs, h3, if_neg (by simp : ¬(false = true))]
    refine ⟨?_, ?_, i3, ?_⟩
    · rw [recordsOf_cons, h1, i1]
    · rw [returnsOf_cons, h2, i2]
    · rw [i4, h4]
      by_cases hm : ng.role = "master" <;>
        by_cases hr : rest.any (fun g => g.role == "master") = true <;>
        simp [hm, hr, List.any_cons]

theorem applySignal_fix_sig (p : PureEnv) (ng ng2 : NodeGroup)
    (h : (applySignal ng (pureSignal p ng)).record = some ng2) :
    (applySignal ng2 (pureSignal p ng2)).record = some ng2 ∧
    (applySignal ng2 (pureSignal p ng2)).returned =
      (applySignal ng (pureSignal p ng)).returned ∧
    ng2.role = ng.role := by
  obtain ⟨hrole, hname, hdel, hfix, hret⟩ :=
    applySignal_fix ng ng2 (pureSignal p ng) h
  have hsig : pureSignal p ng2 = pureSignal p ng :=
    pureSignal_inv p ng ng2 hrole hname hdel
  rw [hsig]
  exact ⟨hfix, hret, hrole⟩

theorem recordsOf_fix (p : PureEnv) (ngs : List NodeGroup) :
    recordsOf p (recordsOf p ngs) = recordsOf p ngs ∧
    returnsOf p (recordsOf p ngs) = returnsOf p ngs := by
  induction ngs with
  | nil => simp [recordsOf, returnsOf]
  | cons ng rest ih =>
    rw [recordsOf_cons, returnsOf_cons]
    cases hr : (applySignal ng (pureSignal p ng)).record with
    | none =>
      have hret := applySignal_record_none ng (pureSignal p ng) hr
      simp only [Option.toList, hret.1, List.nil_append]
      exact ih
    | some ng2 =>
      obtain ⟨hfix, hret, _⟩ := applySignal_fix_sig p ng ng2 hr
      simp [recordsOf_cons, returnsOf_cons, hfix, hret, ih.1, ih.2]

theorem recordsOf_master (p : PureEnv) (ngs : List NodeGroup)
    (h : (recordsOf p ngs).any (fun g => g.role == "master") = true) :
    ngs.any (fun g => g.role == "master") = true := by
  induction ngs with
  | nil => simp [recordsOf] at h
  | cons ng rest ih =>
    rw [recordsOf_cons] at h
    simp only [List.any_cons]
    cases hr : (applySignal ng (pureSignal p ng)).record with
    | none =>
      rw [hr] at h
      simp only [Option.toList, List.nil_append] at h
      simp [ih h]
    | some ng2 =>
      rw [hr] at h
      simp only [Option.toList, List.cons_append, List.nil_append,
        List.any_cons] at h
      rcases Bool.or_eq_true_iff.mp h with h2 | h2
      · obtain ⟨_, _, hrole⟩ := applySignal_fix_sig p ng ng2 hr
        rw [hrole] at h2
        simp [h2]
      · simp [ih h2]

theorem updateStatusDeleting_fields (env : Env) (c : Cluster) :
    (updateStatusDeleting env c).cluster.apiAddress = c.apiAddress ∧
    (updateStatusDeleting env c).cluster.coeVersion = c.coeVersion ∧
    (updateStatusDeleting env c).cluster.releaseName = c.releaseName ∧
    (updateStatusDeleting env c).cluster.nodegroups = c.nodegroups := by
  simp only [updateStatusDeleting]
  cases hs : env.secretsDelete with
  | error e => simp
  | ok u =>
    cases ha : env.appCredDelete with
    | error e => simp
    | ok u2 => simp

theorem cluster_set_ngs_self (c : Cluster) :
    {c with nodegroups := c.nodegroups} = c := by
  cases c; rfl

theorem updateStatusDeleting_pure (p : PureEnv) (c : Cluster) :
    updateStatusDeleting (Env.ofPure p) c =
      ⟨{c with status := "DELETE_COMPLETE"}, 1, false⟩ := rfl

theorem updateStatusUpdating_pure (p : PureEnv) (c : Cluster)
    (capi : CapiObj) :
    updateStatusUpdating (Env.ofPure p) c capi =
      (if !(condsTrue capi.conditions clusterRequired) then ⟨c, 0, false⟩
       else
        match scanAddons p.addons with
        | AddonScan.failed => ⟨{c with status := failedFor c.status}, 1, false⟩
        | AddonScan.waiting => ⟨c, 0, false⟩
        | AddonScan.allDeployed =>
          ⟨{c with status := completeFor c.status}, 1, false⟩) := rfl

theorem runPass_stable (p : PureEnv) (capi : CapiObj) (d : Cluster)
    (hrel : d.releaseName.isSome = true)
    (hcapi : p.capi = some capi)
    (hfix : recordsOf p d.nodegroups = d.nodegroups)
    (hmaster : d.nodegroups.any (fun g => g.role == "master") = true →
      d.coeVersion = kcpVersion p.kcp)
    (haddr : ∀ hp : String × Nat, inProgressStatus d.status = true →
      capi.controlPlaneEndpoint = some hp →
      d.apiAddress = some (addrOf hp.1 hp.2))
    (hupd : inProgressStatus d.status = true →
      (returnsOf p d.nodegroups).any
        (fun g => strEnds g.status "_IN_PROGRESS") = false →
      updateStatusUpdating (Env.ofPure p) d capi = ⟨d, 0, false⟩) :
    (runPass (Env.ofPure p) d).cluster = d := by
  have hcapiE : (Env.ofPure p).capi = Except.ok (some capi) := by
    simp [Env.ofPure, hcapi]
  have haddr1 : updateClusterApiAddress d capi = (d, 0) := by
    simp only [updateClusterApiAddress]
    split_ifs with h1
    · rfl
    · simp only [Bool.not_eq_true', Bool.not_eq_false] at h1
      cases hep : capi.controlPlaneEndpoint with
      | none => rfl
      | some hp =>
        dsimp only
        rw [if_neg]
        simp only [ne_eq, not_not]
        exact haddr hp h1 hep
  obtain ⟨r1, r2, r3, r4⟩ := processAll_pure p d.nodegroups d
  have hclu : (processAllNgs (Env.ofPure p) d d.nodegroups).cluster = d := by
    rw [r4]
    split_ifs with hm
    · have hv := hmaster hm
      cases d
      simp_all
    · rfl
  simp only [runPass, hrel, hcapiE, if_true]
  simp only [haddr1]
  simp only [r1, r2, r3, hclu, hfix, cluster_set_ngs_self,
    Bool.false_eq_true, if_false]
  split_ifs with hip hany
  · rfl
  · rw [hupd hip (by simpa using hany)]
  · rfl

theorem pass1_d0 (p : PureEnv) (capi : CapiObj) (c : Cluster) :
    ({(processAllNgs (Env.ofPure p) (updateClusterApiAddress c capi).1
        (updateClusterApiAddress c capi).1.nodegroups).cluster with
      nodegroups :=
        (processAllNgs (Env.ofPure p) (updateClusterApiAddress c capi).1
          (updateClusterApiAddress c capi).1.nodegroups).records} : Cluster).status
      = c.status ∧
    ({(processAllNgs (Env.ofPure p) (updateClusterApiAddress c capi).1
        (updateClusterApiAddress c capi).1.nodegroups).cluster with
      nodegroups :=
        (processAllNgs (Env.ofPure p) (updateClusterApiAddress c capi).1
          (updateClusterApiAddress c capi).1.nodegroups).records} : Cluster).releaseName
      = c.releaseName ∧
    ({(processAllNgs (Env.ofPure p) (updateClusterApiAddress c capi).1
        (updateClusterApiAddress c capi).1.nodegroups).cluster with
      nodegroups :=
        (processAllNgs (Env.ofPure p) (updateClusterApiAddress c capi).1
          (updateClusterApiAddress c capi).1.nodegroups).records} : Cluster).apiAddress
      = (updateClusterApiAddress c capi).1.apiAddress ∧
    ({(processAllNgs (Env.ofPure p) (updateClusterApiAddress c capi).1
        (updateClusterApiAddress c capi).1.nodegroups).cluster with
      nodegroups :=
        (processAllNgs (Env.ofPure p) (updateClusterApiAddress c capi).1
          (updateClusterApiAddress c capi).1.nodegroups).records} : Cluster).nodegroups
      = recordsOf p c.nodegroups ∧
    (c.nodegroups.any (fun g => g.role == "master") = true →
      ({(processAllNgs (Env.ofPure p) (updateClusterApiAddress c capi).1
          (updateClusterApiAddress c capi).1.nodegroups).cluster with
        nodegroups :=
          (processAllNgs (Env.ofPure p) (updateClusterApiAddress c capi).1
            (updateClusterApiAddress c capi).1.nodegroups).records} : Cluster).coeVersion
        = kcpVersion p.kcp) ∧
    (processAllNgs (Env.ofPure p) (updateClusterApiAddress c capi).1
      (updateClusterApiAddress c capi).1.nodegroups).aborted = false ∧
    (processAllNgs (Env.ofPure p) (updateClusterApiAddress c capi).1
      (updateClusterApiAddress c capi).1.nodegroups).returns
      = returnsOf p c.nodegroups := by
  obtain ⟨f1, f2, f3, f4⟩ := updateClusterApiAddress_fields c capi
  obtain ⟨r1, r2, r3, r4⟩ :=
    processAll_pure p (updateClusterApiAddress c capi).1.nodegroups
      (updateClusterApiAddress c capi).1
  obtain ⟨g1, g2, g3, g4⟩ :=
    processAll_cluster_fields (Env.ofPure p)
      (updateClusterApiAddress c capi).1.nodegroups
      (updateClusterApiAddress c capi).1
  refine ⟨by simp [g1, f1], by simp [g3, f3], by simp [g2],
    by dsimp only; rw [r1, f4], ?_, r3, by rw [r2, f4]⟩
  intro hm
  have hm2 : ((updateClusterApiAddress c capi).1.nodegroups).any
      (fun g => g.role == "master") = true := by rw [f4]; exact hm
  simp only [r4, if_pos hm2]

theorem inprog_cases (s : String) (h : inProgressStatus s = true) :
    s = "CREATE_IN_PROGRESS" ∨ s = "UPDATE_IN_PROGRESS" := by
  simpa [inProgressStatus] using h

theorem failedFor_not_inprog (s : String) (h : inProgressStatus s = true) :
    inProgressStatus (failedFor s) = false := by
  rcases inprog_cases s h with h2 | h2 <;> rw [h2] <;> decide

theorem completeFor_not_inprog (s : String)
    (h : inProgressStatus s = true) :
    inProgressStatus (completeFor s) = false := by
  rcases inprog_cases s h with h2 | h2 <;> rw [h2] <;> decide

theorem d0_stable (p : PureEnv) (capi : CapiObj) (c : Cluster)
    (hrel : c.releaseName.isSome = true) (hcapi : p.capi = some capi)
    (D : Cluster)
    (hngs : D.nodegroups = recordsOf p c.nodegroups)
    (hcoe : c.nodegroups.any (fun g => g.role == "master") = true →
      D.coeVersion = kcpVersion p.kcp)
    (hreln : D.releaseName = c.releaseName)
    (haddr : ∀ hp : String × Nat, inProgressStatus D.status = true →
      capi.controlPlaneEndpoint = some hp →
      D.apiAddress = some (addrOf hp.1 hp.2))
    (hupd : inProgressStatus D.status = true →
      (returnsOf p c.nodegroups).any
        (fun g => strEnds g.status "_IN_PROGRESS") = false →
      updateStatusUpdating (Env.ofPure p) D capi = ⟨D, 0, false⟩) :
    (runPass (Env.ofPure p) D).cluster = D := by
  apply runPass_stable p capi D (by rw [hreln]; exact hrel) hcapi
  · rw [hngs]; exact (recordsOf_fix p c.nodegroups).1
  · intro hm
    apply hcoe
    apply recordsOf_master p
    rw [← hngs]
    exact hm
  · exact haddr
  · intro h1 h2
    apply hupd h1
    rw [hngs, (recordsOf_fix p c.nodegroups).2] at h2
    exact h2

theorem pass1_shape (p : PureEnv) (capi : CapiObj) (c : Cluster)
    (hrel : c.releaseName.isSome = true) (hcapi : p.capi = some capi) :
    ∃ D : Cluster,
      (runPass (Env.ofPure p) c).cluster = D ∧
      D.nodegroups = recordsOf p c.nodegroups ∧
      (c.nodegroups.any (fun g => g.role == "master") = true →
        D.coeVersion = kcpVersion p.kcp) ∧
      D.releaseName = c.releaseName ∧
      (∀ hp : String × Nat, inProgressStatus D.status = true →
        capi.controlPlaneEndpoint = some hp →
        D.apiAddress = some (addrOf hp.1 hp.2)) ∧
      (inProgressStatus D.status = true →
        (returnsOf p c.nodegroups).any
          (fun g => strEnds g.status "_IN_PROGRESS") = false →
        updateStatusUpdating (Env.ofPure p) D capi = ⟨D, 0, false⟩) := by
  have hcapiE : (Env.ofPure p).capi = Except.ok (some capi) := by
    simp [Env.ofPure, hcapi]
  obtain ⟨d1, d2, d3, d4, d5, d6, d7⟩ := pass1_d0 p capi c
  dsimp only at d1 d2 d3 d4 d5
  simp only [runPass, hrel, hcapiE, if_true, d6, Bool.false_eq_true,
    if_false, d1, d2, d3, d4, d7]
  split_ifs with hip hany
  · -- in progress, some node group still in progress: no transition
    refine ⟨_, rfl, rfl, fun hm => d5 hm, rfl, ?_, ?_⟩
    · intro hp hip2 hep
      exact updateClusterApiAddress_sets c capi hp hip hep
    · intro hip2 hanyf
      exact absurd hany (by simp [hanyf])
  · -- in progress, all node groups resolved: the cluster reducer runs
    rw [updateStatusUpdating_pure]
    cases hconds : condsTrue capi.conditions clusterRequired
    · simp only [hconds, Bool.not_false, if_true]
      refine ⟨_, rfl, rfl, fun hm => d5 hm, rfl, ?_, ?_⟩
      · intro hp hip2 hep
        exact updateClusterApiAddress_sets c capi hp hip hep
      · intro hip2 hanyf
        rw [updateStatusUpdating_pure]
        simp [hconds]
    · simp only [hconds, Bool.not_true, Bool.false_eq_true, if_false]
      cases hscan : scanAddons p.addons
      · -- an addon failed: status moves to the matching *_FAILED
        refine ⟨_, rfl, rfl, fun hm => d5 hm, rfl, ?_, ?_⟩
        · intro hp hip2 hep
          have hf := failedFor_not_inprog c.status hip
          dsimp only at hip2
          rw [hf] at hip2
          exact absurd hip2 (by simp)
        · intro hip2 hanyf
          have hf := failedFor_not_inprog c.status hip
          dsimp only at hip2
          rw [hf] at hip2
          exact absurd hip2 (by simp)
      · -- some addon not yet deployed: no transition
        refine ⟨_, rfl, rfl, fun hm => d5 hm, rfl, ?_, ?_⟩
        · intro hp hip2 hep
          exact updateClusterApiAddress_sets c capi hp hip hep
        · intro hip2 hanyf
          rw [updateStatusUpdating_pure]
          simp [hconds, hscan]
      · -- all addons deployed: status moves to the matching *_COMPLETE
        refine ⟨_, rfl, rfl, fun hm => d5 hm, rfl, ?_, ?_⟩
        · intro hp hip2 hep
          have hf := completeFor_not_inprog c.status hip
          dsimp only at hip2
          rw [hf] at hip2
          exact absurd hip2 (by simp)
        · intro hip2 hanyf
          have hf := completeFor_not_inprog c.status hip
          dsimp only at hip2
          rw [hf] at hip2
          exact absurd hip2 (by simp)
  · -- cluster not in a create/update in-progress state: records only
    refine ⟨_, rfl, rfl, fun hm => d5 hm, rfl, ?_, ?_⟩
    · intro hp hip2 hep
      exact absurd hip2 hip
    · intro hip2 hanyf
      exact absurd hip2 hip

theorem runPass_nocapi (p : PureEnv) (c : Cluster)
    (h : (if c.releaseName.isSome = true then p.capi else none) = none) :
    runPass (Env.ofPure p) c =
      (if inProgressStatus c.status = true then ⟨c, 0, false⟩
       else if c.status = "DELETE_IN_PROGRESS" then
         ⟨{c with status := "DELETE_COMPLETE"}, 1, false⟩
       else ⟨c, 0, false⟩) := by
  have hok : (if c.releaseName.isSome = true then (Env.ofPure p).capi
      else Except.ok none) = Except.ok none := by
    cases hrel : c.releaseName.isSome
    · simp [hrel]
    · simp only [hrel, if_true] at h ⊢
      simp [Env.ofPure, h]
  simp only [runPass, hok, updateStatusDeleting_pure]

theorem runPass_pure_state_idem (p : PureEnv) (c : Cluster) :
    (runPass (Env.ofPure p) (runPass (Env.ofPure p) c).cluster).cluster =
      (runPass (Env.ofPure p) c).cluster := by
  by_cases hcap : (if c.releaseName.isSome = true then p.capi else none)
      = none
  · rw [runPass_nocapi p c hcap]
    split_ifs with hip hdel
    · dsimp only
      rw [runPass_nocapi p c hcap, if_pos hip]
    · dsimp only
      have h1 : (if ({c with status := "DELETE_COMPLETE"} :
          Cluster).releaseName.isSome = true then p.capi else none)
          = none := hcap
      rw [runPass_nocapi p _ h1]
      simp +decide
    · dsimp only
      rw [runPass_nocapi p c hcap, if_neg hip, if_neg hdel]
  · have hrel : c.releaseName.isSome = true := by
      by_contra hr
      rw [if_neg hr] at hcap
      exact hcap rfl
    obtain ⟨capi, hcapi⟩ : ∃ x, p.capi = some x := by
      rw [if_pos hrel] at hcap
      cases hpc : p.capi with
      | none => rw [hpc] at hcap; exact absurd rfl hcap
      | some x => exact ⟨x, rfl⟩
    obtain ⟨D, hD, h1, h2, h3, h4, h5⟩ := pass1_shape p capi c hrel hcapi
    rw [hD]
    exact d0_stable p capi c hrel hcapi D h1 h2 h3 h4 h5

theorem runPass_apiAddress_mono (env : Env) (c : Cluster)
    (h : c.apiAddress ≠ none) :
    (runPass env c).cluster.apiAddress ≠ none := by
  simp only [runPass]
  cases hfetch : (if c.releaseName.isSome = true then env.capi
      else Except.ok none) with
  | error e => simpa using h
  | ok capiOpt =>
    cases capiOpt with
    | none =>
      dsimp only
      split_ifs with hip hdel
      · simpa using h
      · rw [(updateStatusDeleting_fields env c).1]; exact h
      · simpa using h
    | some capi =>
      dsimp only
      have hpa := (processAll_cluster_fields env
        (updateClusterApiAddress c capi).1.nodegroups
        (updateClusterApiAddress c capi).1).2.1
      have hne : (updateClusterApiAddress c capi).1.apiAddress ≠ none := by
        rcases updateClusterApiAddress_addr c capi with h1 | ⟨s, h1⟩ <;>
          rw [h1] <;> simp_all
      split_ifs with hab hip hany
      · dsimp only; rw [hpa]; exact hne
      · dsimp only; rw [hpa]; exact hne
      · have hu := (updateStatusUpdating_fields env
          {(processAllNgs env (updateClusterApiAddress c capi).1
            (updateClusterApiAddress c capi).1.nodegroups).cluster with
           nodegroups :=
            (processAllNgs env (updateClusterApiAddress c capi).1
              (updateClusterApiAddress c capi).1.nodegroups).records} capi).1
        dsimp only
        rw [hu]
        dsimp only
        rw [hpa]
        exact hne
      · dsimp only; rw [hpa]; exact hne

theorem scanAddons_allDeployed (l : List Addon)
    (h : ∀ a ∈ l, a.phase = some "Deployed") :
    scanAddons l = AddonScan.allDeployed := by
  induction l with
  | nil => rfl
  | cons a rest ih =>
    have ha := h a (by simp)
    have hrest := ih fun b hb => h b (by simp [hb])
    simp +decide [scanAddons, ha, hrest]

theorem scanAddons_failed (pre : List Addon) (a : Addon)
    (rest : List Addon)
    (hpre : ∀ b ∈ pre, b.phase = some "Deployed")
    (ha : a.phase = some "Failed" ∨ a.phase = some "Unknown") :
    scanAddons (pre ++ a :: rest) = AddonScan.failed := by
  induction pre with
  | nil => rcases ha with h | h <;> simp +decide [scanAddons, h]
  | cons b pre2 ih =>
    have hb := hpre b (by simp)
    have hrest := ih fun x hx => hpre x (by simp [hx])
    simp +decide [scanAddons, hb, hrest]

theorem scanAddons_waiting (pre : List Addon) (a : Addon)
    (rest : List Addon)
    (hpre : ∀ b ∈ pre, b.phase = some "Deployed")
    (ha : a.phase = none ∨ ∃ q, a.phase = some q ∧
      q ≠ "Failed" ∧ q ≠ "Unknown" ∧ q ≠ "Deployed") :
    scanAddons (pre ++ a :: rest) = AddonScan.waiting := by
  induction pre with
  | nil =>
    rcases ha with h | ⟨q, hq, f1, f2, f3⟩
    · simp [scanAddons, h]
    · simp [scanAddons, hq, f1, f2, f3]
  | cons b pre2 ih =>
    have hb := hpre b (by simp)
    have hrest := ih fun x hx => hpre x (by simp [hx])
    simp +decide [scanAddons, hb, hrest]

theorem reqTrace_length (tok : Option String) (ps : List Page) :
    (reqTrace tok ps).length = ps.length := by
  induction ps generalizing tok with
  | nil => rfl
  | cons q qs ih => simp [reqTrace, ih]

theorem reqTrace_dropLast (tok : Option String) (ps : List Page)
    (h : ps ≠ []) :
    reqTrace tok ps = tok :: ps.dropLast.map (fun q => some q.cont) := by
  induction ps generalizing tok with
  | nil => cases h rfl
  | cons q qs ih =>
    cases qs with
    | nil => simp [reqTrace]
    | cons q2 qs2 =>
      rw [reqTrace, ih (some q.cont) (by simp),
        show (q :: q2 :: qs2).dropLast = q :: (q2 :: qs2).dropLast from rfl]
      simp

theorem serves_ne_nil {server : Option String → Page}
    {tok : Option String} {pages : List Page}
    (h : Serves server tok pages) : pages ≠ [] := by
  cases h <;> simp

theorem fetchLoop_serves {server : Option String → Page}
    {tok : Option String} {pages : List Page}
    (h : Serves server tok pages) :
    ∀ fuel : Nat, pages.length ≤ fuel →
    fetchLoop server tok fuel =
      some ((pages.map Page.items).flatten, reqTrace tok pages) := by
  induction h with
  | last hserv hcont =>
    intro fuel hf
    cases fuel with
    | zero => simp at hf
    | succ n => simp [fetchLoop, hserv, hcont, reqTrace]
  | step hserv hcont hrest ih =>
    intro fuel hf
    cases fuel with
    | zero => simp at hf
    | succ n =>
      have hn := ih n (by simpa using Nat.le_of_succ_le_succ hf)
      simp [fetchLoop, hserv, hcont, reqTrace, hn]

theorem constToken_no_exit (fuel : Nat) :
    ∀ tok : Option String, fetchLoop constTokenServer tok fuel = none := by
  induction fuel with
  | zero => intro tok; rfl
  | succ n ih => intro tok; simp [fetchLoop, constTokenServer, ih]

theorem fetchLoop_some_empty_token (fuel : Nat) :
    ∀ (server : Option String → Page) (tok : Option String)
      (r : List Nat × List (Option String)),
    fetchLoop server tok fuel = some r →
    ∃ t ∈ r.2, (server t).cont = "" := by
  induction fuel with
  | zero => intro server tok r h; simp [fetchLoop] at h
  | succ n ih =>
    intro server tok r h
    simp only [fetchLoop] at h
    split_ifs at h with hc
    · obtain ⟨h1, h2⟩ := Prod.mk.injEq .. ▸ (Option.some.injEq .. ▸ h)
      exact ⟨tok, by rw [← h2]; simp, hc⟩
    · rcases hrec : fetchLoop server (some (server tok).cont) n with _ | r2
      · rw [hrec] at h; simp at h
      · rw [hrec] at h
        simp only [Option.map_some'] at h
        have hr := Option.some.inj h
        subst hr
        obtain ⟨t, ht, hcont⟩ := ih server (some (server tok).cont) r2 hrec
        exact ⟨t, List.mem_cons_of_mem tok ht, hcont⟩

/-! ## Claim theorems -/

/-- Claim C1 (amended): for a present control-plane object the reducer
returns `READY` iff the four required conditions each appear with status
`"True"` and the four replica fields are equal as optional values; a
missing field compares equal to another missing field, so presence of the
replica counts is not required.  In every other case the reducer returns
`PENDING`, never `FAILED`. -/
theorem controlPlane_ready_characterization (k : KcpObj) :
    (controlPlaneState (some k) = NodeGroupState.READY ↔
      (condsTrue k.conditions kcpRequired = true ∧
       k.specReplicas = k.statusReplicas ∧
       k.statusReplicas = k.updatedReplicas ∧
       k.updatedReplicas = k.readyReplicas)) ∧
    (controlPlaneState (some k) = NodeGroupState.READY ∨
     controlPlaneState (some k) = NodeGroupState.PENDING) := by
  simp only [controlPlaneState]
  split_ifs with h
  · exact ⟨⟨fun _ => h, fun _ => rfl⟩, Or.inl rfl⟩
  · exact ⟨⟨fun hh => absurd hh (by decide), fun hh => absurd hh h⟩,
      Or.inr rfl⟩

/-- Claim C1 counterexample: a present control-plane object with all four
conditions `"True"` and none of the four replica fields present is
reduced to `READY`, not `PENDING`, because `None == None` holds in the
chained comparison. -/
theorem controlPlane_ready_without_replica_fields :
    controlPlaneState (some kcpAllTrueNoReplicas) = NodeGroupState.READY ∧
    kcpAllTrueNoReplicas.specReplicas = none ∧
    kcpAllTrueNoReplicas.statusReplicas = none ∧
    kcpAllTrueNoReplicas.updatedReplicas = none ∧
    kcpAllTrueNoReplicas.readyReplicas = none := by decide

/-- Claim C2 (amended): a second pass over the state produced by a first
error-free pass, with the remote view unchanged, leaves every cluster and
node-group record field exactly as the first pass left it.  (Persistence
writes are not suppressed, see the counterexample: the node-group save on
a `READY`/`FAILED` signal is unconditional.) -/
theorem pass_state_idempotent (p : PureEnv) (c : Cluster) :
    (runPass (Env.ofPure p) (runPass (Env.ofPure p) c).cluster).cluster =
      (runPass (Env.ofPure p) c).cluster :=
  runPass_pure_state_idem p c

/-- Claim C1 witness: the characterization applied at a concrete
control-plane object. -/
theorem controlPlane_ready_characterization_witness :
    controlPlaneState (some kcpAllTrueNoReplicas) = NodeGroupState.READY ∨
    controlPlaneState (some kcpAllTrueNoReplicas) =
      NodeGroupState.PENDING :=
  (controlPlane_ready_characterization kcpAllTrueNoReplicas).2

/-- Claim C2 witness: the idempotence theorem at a concrete cluster and
remote view. -/
theorem pass_state_idempotent_witness :
    (runPass (Env.ofPure envRunningWorker)
      (runPass (Env.ofPure envRunningWorker)
        clusterMasterCreating).cluster).cluster =
      (runPass (Env.ofPure envRunningWorker) clusterMasterCreating).cluster :=
  pass_state_idempotent envRunningWorker clusterMasterCreating

/-- Claim C2 counterexample: with an unchanged remote view, the second
pass reaches exactly the same record state but still issues one
node-group `save()` (the worker is `CREATE_COMPLETE`, its signal is
`READY`, and the transition branch saves without checking for a
change). -/
theorem second_pass_issues_write :
    (runPass (Env.ofPure envRunningWorker)
      (runPass (Env.ofPure envRunningWorker) clusterOneWorker).cluster).writes
      = 1 ∧
    (runPass (Env.ofPure envRunningWorker)
      (runPass (Env.ofPure envRunningWorker) clusterOneWorker).cluster).cluster
      = (runPass (Env.ofPure envRunningWorker) clusterOneWorker).cluster := by
  decide

/-- Claim C3 (amended): with the three cluster conditions `"True"`, the
first addon in iteration order that is not `Deployed` decides the pass:
if its phase is `Failed` or `Unknown` the cluster moves to the matching
`*_FAILED`; otherwise no transition happens this pass.  Only when every
addon is `Deployed` does the cluster move to `*_COMPLETE`, and without
the three conditions nothing is evaluated.  A `Failed` addon that comes
after a not-yet-deployed addon is never reached. -/
theorem cluster_completion_first_nondeployed (env : Env) (c : Cluster)
    (capi : CapiObj) (addons : List Addon)
    (hst : c.status = "CREATE_IN_PROGRESS" ∨ c.status = "UPDATE_IN_PROGRESS")
    (ha : env.addons = Except.ok addons)
    (hc : condsTrue capi.conditions clusterRequired = true) :
    ((∀ b ∈ addons, b.phase = some "Deployed") →
      updateStatusUpdating env c capi =
        ⟨{c with status := completeFor c.status}, 1, false⟩) ∧
    (∀ (pre : List Addon) (a : Addon) (rest : List Addon),
      addons = pre ++ a :: rest →
      (∀ b ∈ pre, b.phase = some "Deployed") →
      (a.phase = some "Failed" ∨ a.phase = some "Unknown") →
      updateStatusUpdating env c capi =
        ⟨{c with status := failedFor c.status}, 1, false⟩) ∧
    (∀ (pre : List Addon) (a : Addon) (rest : List Addon),
      addons = pre ++ a :: rest →
      (∀ b ∈ pre, b.phase = some "Deployed") →
      (a.phase = none ∨ ∃ q, a.phase = some q ∧
        q ≠ "Failed" ∧ q ≠ "Unknown" ∧ q ≠ "Deployed") →
      updateStatusUpdating env c capi = ⟨c, 0, false⟩) ∧
    (∀ capi2 : CapiObj, condsTrue capi2.conditions clusterRequired = false →
      updateStatusUpdating env c capi2 = ⟨c, 0, false⟩) := by
  refine ⟨?_, ?_, ?_, ?_⟩
  · intro hall
    simp only [updateStatusUpdating, hc, Bool.not_true, Bool.false_eq_true,
      if_false, ha]
    rw [scanAddons_allDeployed addons hall]
  · intro pre a rest heq hpre haf
    simp only [updateStatusUpdating, hc, Bool.not_true, Bool.false_eq_true,
      if_false, ha, heq]
    rw [scanAddons_failed pre a rest hpre haf]
  · intro pre a rest heq hpre haw
    simp only [updateStatusUpdating, hc, Bool.not_true, Bool.false_eq_true,
      if_false, ha, heq]
    rw [scanAddons_waiting pre a rest hpre haw]
  · intro capi2 h2
    simp only [updateStatusUpdating, h2, Bool.not_false, if_true]

/-- Claim C3 witness: with addons `[Deployed, Failed]` the theorem yields
the concrete `*_FAILED` transition. -/
theorem cluster_completion_witness :
    updateStatusUpdating envDeployedThenFailed clusterCreatingBare
      capiAllTrue =
      ⟨{clusterCreatingBare with
        status := failedFor clusterCreatingBare.status}, 1, false⟩ := by
  have h := cluster_completion_first_nondeployed envDeployedThenFailed
    clusterCreatingBare capiAllTrue [⟨some "Deployed"⟩, ⟨some "Failed"⟩]
    (Or.inl rfl) rfl (by decide)
  exact h.2.1 [⟨some "Deployed"⟩] ⟨some "Failed"⟩ [] rfl (by decide)
    (Or.inl rfl)

/-- Claim C3 counterexample: conditions all `"True"`, addon list
`[no-phase, Failed]` — a `Failed` addon is present, yet the pass makes no
transition (and issues no write) because the scan stops at the
not-yet-deployed addon before it. -/
theorem failed_addon_after_pending_no_transition :
    updateStatusUpdating envPendingThenFailed clusterCreatingBare
      capiAllTrue = ⟨clusterCreatingBare, 0, false⟩ ∧
    Addon.mk (some "Failed") ∈ addonsPendingThenFailed ∧
    envPendingThenFailed.addons = Except.ok addonsPendingThenFailed ∧
    clusterCreatingBare.status = "CREATE_IN_PROGRESS" ∧
    condsTrue capiAllTrue.conditions clusterRequired = true :=
  ⟨by decide, by decide, rfl, rfl, by decide⟩

/-- Claim C4: for a node group whose status begins with `DELETE_`: a
non-default record is destroyed exactly when the signal is `NOT_PRESENT`;
a default record is never destroyed; the record survives whenever it is
not destroyed; for a worker group the `NOT_PRESENT` signal requires the
machine deployment to be absent and no machines to remain — an absent
object with machines remaining gives `PENDING` and the record is
retained, and a present object never gives `NOT_PRESENT`. -/
theorem delete_nodegroup_removal (ng : NodeGroup) (s : NodeGroupState)
    (mach : Bool) (hdel : strStarts ng.status "DELETE_" = true) :
    (ng.isDefault = false →
      ((applySignal ng s).destroyed = true ↔
        s = NodeGroupState.NOT_PRESENT)) ∧
    (ng.isDefault = true → (applySignal ng s).destroyed = false) ∧
    ((applySignal ng s).record = none →
      ng.isDefault = false ∧ s = NodeGroupState.NOT_PRESENT) ∧
    workerSignal none ng.status false = NodeGroupState.NOT_PRESENT ∧
    (mach = true →
      workerSignal none ng.status mach = NodeGroupState.PENDING ∧
      (applySignal ng (workerSignal none ng.status mach)).record = some ng ∧
      (applySignal ng (workerSignal none ng.status mach)).destroyed
        = false) ∧
    (∀ m : MdObj,
      workerSignal (some m) ng.status mach ≠ NodeGroupState.NOT_PRESENT) := by
  refine ⟨?_, ?_, ?_, ?_, ?_, fun m => workerSignal_some_ne m ng.status mach⟩
  · intro hdef
    cases s <;> simp [applySignal, hdel, hdef]
  · intro hdef
    cases s <;> simp [applySignal, hdel, hdef]
  · intro hr
    revert hr
    cases s <;> by_cases hd : ng.isDefault <;>
      simp [applySignal, hdel, hd]
  · rw [workerSignal_none]
    simp
  · intro hm
    subst hm
    rw [workerSignal_none]
    simp only [hdel, Bool.and_self, if_pos rfl]
    refine ⟨rfl, ?_, ?_⟩ <;> simp [applySignal, hdel]

/-- Claim C4 witness: a concrete non-default deleting worker group is
destroyed on a `NOT_PRESENT` signal. -/
theorem delete_nodegroup_removal_witness :
    (applySignal ngWorkerDeleting NodeGroupState.NOT_PRESENT).destroyed
      = true := by
  have h := delete_nodegroup_removal ngWorkerDeleting
    NodeGroupState.NOT_PRESENT false (by decide)
  exact (h.1 rfl).mpr rfl

/-- Claim C5 (amended): a transport error aborts the remainder of the
pass, but only mutations issued after the failing call are prevented; in
particular, when the very first remote call (the cluster fetch) fails,
no record mutation at all has been persisted.  Mutations persisted
earlier in the same pass (such as the api-address write) survive the
abort, see the counterexample. -/
theorem error_on_first_fetch_no_mutation (env : Env) (c : Cluster)
    (hrel : c.releaseName.isSome = true)
    (hcapi : env.capi = Except.error ()) :
    runPass env c = ⟨c, 0, true⟩ := by
  simp only [runPass, hrel, if_true, hcapi]

/-- Claim C5 witness: the first-fetch-error case at a concrete cluster. -/
theorem error_on_first_fetch_witness :
    runPass envCapiError clusterMasterCreating =
      ⟨clusterMasterCreating, 0, true⟩ :=
  error_on_first_fetch_no_mutation envCapiError clusterMasterCreating
    (by decide) rfl

/-- Claim C5 counterexample: the cluster fetch succeeds and the
api-address is persisted, then the control-plane fetch fails; the pass
aborts, yet the cluster record differs from its prior persisted state
(one write was issued). -/
theorem abort_after_partial_write :
    (runPass envKcpError clusterMasterCreating).aborted = true ∧
    (runPass envKcpError clusterMasterCreating).cluster.apiAddress ≠
      clusterMasterCreating.apiAddress ∧
    clusterMasterCreating.apiAddress = none ∧
    (runPass envKcpError clusterMasterCreating).writes = 1 := by decide

/-- Claim C6: for a present machine deployment the worker reducer maps
phase `Running` to `READY`, `Failed` and `Unknown` to `FAILED`, and
anything else — including a missing phase — to `PENDING`, whatever the
record status and the machines query say. -/
theorem worker_phase_mapping (m : MdObj) (st : String) (mach : Bool) :
    workerSignal (some m) st mach = specWorkerPhaseMap m.phase := by
  cases hp : m.phase with
  | none => simp [workerSignal, specWorkerPhaseMap, hp]
  | some q =>
    simp only [workerSignal, specWorkerPhaseMap, hp, Option.isSome_some,
      Option.isNone_some, Bool.false_and, Bool.if_true_left]
    split_ifs <;> simp_all

/-- Claim C6 witness: the phase mapping at a concrete machine
deployment. -/
theorem worker_phase_mapping_witness :
    workerSignal (some ⟨some "Running"⟩) "CREATE_IN_PROGRESS" false =
      specWorkerPhaseMap (some "Running") :=
  worker_phase_mapping ⟨some "Running"⟩ "CREATE_IN_PROGRESS" false

/-- Claim C7: the api-address update is skipped when the endpoint is
missing or the cluster is not creating or updating; when the endpoint is
known the address is written only when it differs from the stored one;
and a stored address is never cleared, neither by the update itself nor
by a whole pass. -/
theorem api_address_update_characterization (c : Cluster)
    (capi : CapiObj) :
    (capi.controlPlaneEndpoint = none →
      updateClusterApiAddress c capi = (c, 0)) ∧
    (inProgressStatus c.status = false →
      updateClusterApiAddress c capi = (c, 0)) ∧
    (∀ hp : String × Nat, capi.controlPlaneEndpoint = some hp →
      inProgressStatus c.status = true →
      ((c.apiAddress = some (addrOf hp.1 hp.2) →
          updateClusterApiAddress c capi = (c, 0)) ∧
       (c.apiAddress ≠ some (addrOf hp.1 hp.2) →
          updateClusterApiAddress c capi =
            ({c with apiAddress := some (addrOf hp.1 hp.2)}, 1)))) ∧
    (c.apiAddress ≠ none →
      (updateClusterApiAddress c capi).1.apiAddress ≠ none) ∧
    (∀ env : Env, c.apiAddress ≠ none →
      (runPass env c).cluster.apiAddress ≠ none) := by
  refine ⟨?_, ?_, ?_, ?_, fun env h => runPass_apiAddress_mono env c h⟩
  · intro hep
    simp only [updateClusterApiAddress, hep]
    split_ifs <;> rfl
  · intro hip
    simp only [updateClusterApiAddress, hip]
    rfl
  · intro hp hep hip
    constructor
    · intro ha
      simp [updateClusterApiAddress, hep, hip, ha]
    · intro ha
      simp [updateClusterApiAddress, hep, hip, ha]
  · intro h
    rcases updateClusterApiAddress_addr c capi with h1 | ⟨s, h1⟩ <;>
      rw [h1] <;> simp_all

/-- Claim C7 witness: concrete skip, set, and no-rewrite cases. -/
theorem api_address_update_witness :
    updateClusterApiAddress clusterCreatingBare ⟨some ("h", 6443), []⟩ =
      ({clusterCreatingBare with
        apiAddress := some (addrOf "h" 6443)}, 1) := by
  have h := api_address_update_characterization clusterCreatingBare
    ⟨some ("h", 6443), []⟩
  exact (h.2.2.1 ("h", 6443) rfl (by decide)).2 (by decide)

/-- Claim C8: when the server behaves as a finite chain of pages whose
last continuation token is empty (and only the last), the label-list
loop yields exactly the concatenation of the pages' items, issues
exactly one request per page — none after the empty token — and sends
the previously returned token as the `continue` parameter of every
request after the first. -/
theorem fetch_all_by_label_exhaustive (server : Option String → Page)
    (tok : Option String) (pages : List Page) (fuel : Nat)
    (h : Serves server tok pages) (hf : pages.length ≤ fuel) :
    fetchLoop server tok fuel =
      some ((pages.map Page.items).flatten, reqTrace tok pages) ∧
    (reqTrace tok pages).length = pages.length ∧
    reqTrace tok pages =
      tok :: pages.dropLast.map (fun q => some q.cont) := by
  exact ⟨fetchLoop_serves h fuel hf, reqTrace_length tok pages,
    reqTrace_dropLast tok pages (serves_ne_nil h)⟩

/-- The three-page chain served by `threePageServer`. -/
theorem threePageServer_serves : Serves threePageServer none threePages :=
  Serves.step rfl (by decide)
    (Serves.step rfl (by decide) (Serves.last rfl rfl))

/-- Claim C8 witness: the three-page listing yields items 1..5 exactly
once with requests `[none, "a", "b"]` and stops after the empty token. -/
theorem fetch_all_three_pages :
    fetchLoop threePageServer none 3 =
      some ([1, 2, 3, 4, 5], [none, some "a", some "b"]) := by
  have h := fetch_all_by_label_exhaustive threePageServer none threePages 3
    threePageServer_serves (by decide)
  exact h.1.trans (by decide)

/-- Claim C9 (amended): the label-list loop has no iteration cap: it
stops only on receiving an empty continuation token.  Against a server
that answers every request with a non-empty token, no request budget
whatsoever lets the loop finish; and whenever the loop does finish, some
request in its trace was answered with the empty token. -/
theorem fetch_loop_no_cap :
    (∀ (fuel : Nat) (tok : Option String),
      fetchLoop constTokenServer tok fuel = none) ∧
    (∀ (server : Option String → Page) (tok : Option String) (fuel : Nat)
      (r : List Nat × List (Option String)),
      fetchLoop server tok fuel = some r →
      ∃ t ∈ r.2, (server t).cont = "") := by
  exact ⟨fun fuel tok => constToken_no_exit fuel tok,
    fun server tok fuel r h => fetchLoop_some_empty_token fuel server tok r h⟩

/-- Claim C9 witness: the second part applied to the three-page run. -/
theorem fetch_loop_no_cap_witness :
    ∃ t ∈ [none, some "a", some "b"], (threePageServer t).cont = "" :=
  fetch_loop_no_cap.2 threePageServer none 3
    ([1, 2, 3, 4, 5], [none, some "a", some "b"]) (by decide)

/-- Claim C9 counterexample: the loop, as written, never terminates
against a server that always returns a non-empty continuation token —
there is no bounded number of requests after which it stops. -/
theorem fetch_loop_nonterminating_const_server :
    ¬ fetchTerminates constTokenServer := by
  rintro ⟨fuel, h⟩
  rw [constToken_no_exit fuel none] at h
  simp at h

/-- Claim C10: on every controller node-group pass the stored
`coe_version` is overwritten with the control-plane object's reported
version — `status.version` falling back to `spec.version`, and `None`
when the object is absent or carries no version — and the write is
issued exactly when the stored value differs.  The stored version is
therefore not sticky: an absent object resets it to `None`. -/
theorem coe_version_follows_control_plane (env : Env) (c : Cluster)
    (ng : NodeGroup) (kcp : Option KcpObj)
    (hrole : ng.role = "master") (hk : env.kcp = Except.ok kcp) :
    (processNg env c ng).cluster.coeVersion = kcpVersion kcp ∧
    (processNg env c ng).aborted = false ∧
    (updateCoeVersion c kcp).1.coeVersion = kcpVersion kcp ∧
    (updateCoeVersion c kcp).2 =
      (if c.coeVersion = kcpVersion kcp then 0 else 1) ∧
    kcpVersion none = none := by
  refine ⟨?_, ?_, ?_, ?_, rfl⟩
  · simp [processNg, hrole, hk, updateCoeVersion_fst]
  · simp [processNg, hrole, hk]
  · simp [updateCoeVersion_fst]
  · simp only [updateCoeVersion]
    split_ifs with h1 h2 <;> simp_all

/-- Claim C10 witness: a stored version is overwritten with `None` (and
a write issued) when the control-plane object is absent. -/
theorem coe_version_witness :
    (processNg envNoKcp clusterWithVersion ngMaster).cluster.coeVersion
      = none ∧
    clusterWithVersion.coeVersion = some "v1.26.2" := by
  have h := coe_version_follows_control_plane envNoKcp clusterWithVersion
    ngMaster none rfl rfl
  exact ⟨h.1, rfl⟩

end CapiHelm
